import Mathlib

/-!
Verification of the order-processing lifecycle engine described by the
repository specification, together with the create-order submit handler of
the browser UI (src/static/script.js).

The repository ships only the UI script and documentation; the lifecycle
engine itself (aggregate, store, service, background advancer) is not part
of the visible sources, so its definitions below are modelled from the
specification text and are marked as such.  The UI definitions are
translated directly from src/static/script.js.
-/

set_option maxHeartbeats 1000000

namespace OrderProc

/-- Modelled from the spec: the closed status enumeration of an order
(section 3, Data Model). -/
inductive OrderStatus where
  | PENDING
  | PROCESSING
  | SHIPPED
  | DELIVERED
  | CANCELLED
deriving DecidableEq, Repr

/-- Modelled from the spec: an order item with product identifier, integer
quantity and decimal unit price (section 3). -/
structure Item where
  product_id : String
  quantity : Int
  unit_price : Rat
deriving DecidableEq, Repr

/-- Modelled from the spec: an order with identity, customer, item list,
status, derived total and timestamps (section 3). -/
structure Order where
  id : Nat
  customer_id : String
  items : List Item
  status : OrderStatus
  total_amount : Rat
  created_at : Nat
  updated_at : Nat
deriving DecidableEq, Repr

/-- Modelled from the spec: an append-only status history entry (section 3). -/
structure HistoryEntry where
  order_id : Nat
  old_status : OrderStatus
  new_status : OrderStatus
  changed_at : Nat
  changed_by : String
deriving DecidableEq, Repr

/-- Modelled from the spec: the error taxonomy of section 7. -/
inductive DomainError where
  | InvalidItemError
  | InvalidTransitionError
  | NotFoundError
  | ConflictError
  | DuplicateKeyError
deriving DecidableEq, Repr

/-- Modelled from the spec: the Order Store state, a key-addressable
collection of orders (keyed by id) plus the append-only status history;
`nextId` feeds unique id generation and `clock` a monotone timestamp
source (sections 3 and 4.2). -/
structure Store where
  orders : List Order
  history : List HistoryEntry
  nextId : Nat
  clock : Nat
deriving DecidableEq, Repr

/-- Sum of quantity times unit price over an item list. -/
def totalOf (items : List Item) : Rat :=
  items.foldl (fun acc it => acc + it.quantity * it.unit_price) 0

/-- Modelled from the spec: item validity, quantity at least 1 and unit
price at least 0.01 (section 4.1). -/
def itemValid (it : Item) : Bool :=
  decide (1 ≤ it.quantity) && decide ((1 / 100 : Rat) ≤ it.unit_price)

/-- Modelled from the spec: `computeTotal` of the Order Aggregate, failing
with `InvalidItemError` on an empty list or any invalid item (section 4.1). -/
def computeTotal (items : List Item) : Except DomainError Rat :=
  if items.isEmpty then Except.error DomainError.InvalidItemError
  else if items.all itemValid then Except.ok (totalOf items)
  else Except.error DomainError.InvalidItemError

/-- Modelled from the spec: the fixed transition graph of the lifecycle
(section 4.1). -/
def isTransitionAllowed : OrderStatus → OrderStatus → Bool
  | OrderStatus.PENDING, OrderStatus.PROCESSING => true
  | OrderStatus.PROCESSING, OrderStatus.SHIPPED => true
  | OrderStatus.SHIPPED, OrderStatus.DELIVERED => true
  | OrderStatus.PENDING, OrderStatus.CANCELLED => true
  | _, _ => false

/-- Modelled from the spec: `isCancellable`, true only for PENDING
(section 4.1). -/
def isCancellable (s : OrderStatus) : Bool :=
  s = OrderStatus.PENDING

/-- Replace the order stored under key `oid` by `o2`, leaving all other
keys untouched. -/
def setOrder (l : List Order) (oid : Nat) (o2 : Order) : List Order :=
  l.map (fun p => if p.id == oid then o2 else p)

/-- Modelled from the spec: Store point lookup, failing with
`NotFoundError` on an unknown id (section 4.2). -/
def Store.getByID (σ : Store) (oid : Nat) : Except DomainError Order :=
  match σ.orders.find? (fun o => o.id == oid) with
  | some o => Except.ok o
  | none => Except.error DomainError.NotFoundError

/-- Modelled from the spec: `Store.create`, persisting a new order keyed by
its id and failing with `DuplicateKeyError` on an id collision
(section 4.2). -/
def Store.create (σ : Store) (o : Order) : Except DomainError Store :=
  if σ.orders.any (fun p => p.id == o.id) then
    Except.error DomainError.DuplicateKeyError
  else
    Except.ok { σ with orders := σ.orders ++ [o] }

/-- Modelled from the spec: the atomic compare-and-update primitive of the
Store, succeeding only when the stored status equals the expected one; on
success it updates `updated_at`, appends one history entry and returns the
updated order; on mismatch it fails with `ConflictError` (section 4.2). -/
def Store.compareAndUpdateStatus (σ : Store) (oid : Nat)
    (expected newStatus : OrderStatus) (actor : String) :
    Except DomainError (Order × Store) :=
  match σ.orders.find? (fun o => o.id == oid) with
  | none => Except.error DomainError.NotFoundError
  | some o =>
    if o.status = expected then
      let o2 : Order := { o with status := newStatus, updated_at := σ.clock }
      Except.ok (o2,
        { σ with
          orders := setOrder σ.orders oid o2
          history := σ.history ++
            [{ order_id := oid, old_status := o.status, new_status := newStatus,
               changed_at := σ.clock, changed_by := actor }]
          clock := σ.clock + 1 })
    else Except.error DomainError.ConflictError

/-- Modelled from the spec: `createOrder` of the Lifecycle Service —
validates items via the Aggregate, computes the total, assigns a fresh
unique id and PENDING status and persists via `Store.create`
(section 4.3).  No total is accepted as input. -/
def createOrder (σ : Store) (customerId : String) (items : List Item) :
    Except DomainError (Order × Store) :=
  match computeTotal items with
  | Except.error e => Except.error e
  | Except.ok total =>
    let o : Order :=
      { id := σ.nextId, customer_id := customerId, items := items,
        status := OrderStatus.PENDING, total_amount := total,
        created_at := σ.clock, updated_at := σ.clock }
    match Store.create { σ with nextId := σ.nextId + 1, clock := σ.clock + 1 } o with
    | Except.error e => Except.error e
    | Except.ok σ2 => Except.ok (o, σ2)

/-- Modelled from the spec: `getOrder`, delegating to `Store.getByID`
(section 4.3). -/
def getOrder (σ : Store) (oid : Nat) : Except DomainError Order :=
  Store.getByID σ oid

/-- Modelled from the spec: `transition` of the Lifecycle Service
(section 4.3), made explicit about concurrency — `f` is the interference a
concurrent writer commits between the initial read and the first
compare-and-update, and `g` the interference between the re-read and the
retry.  The sequential call is `transition` below, with no interference.
The body follows section 4.3 literally: read, validate against the graph,
compare-and-update; on `ConflictError` re-read, treat an already-at-target
order as a no-op success, otherwise re-validate and retry exactly once
before surfacing the conflict. -/
def transitionI (f g : Store → Store) (σ : Store) (oid : Nat)
    (target : OrderStatus) (actor : String) :
    Except DomainError (Order × Store) :=
  match Store.getByID σ oid with
  | Except.error e => Except.error e
  | Except.ok o =>
    if isTransitionAllowed o.status target then
      let σ1 := f σ
      match Store.compareAndUpdateStatus σ1 oid o.status target actor with
      | Except.ok r => Except.ok r
      | Except.error DomainError.ConflictError =>
        match Store.getByID σ1 oid with
        | Except.error e => Except.error e
        | Except.ok o2 =>
          if o2.status = target then Except.ok (o2, σ1)
          else if isTransitionAllowed o2.status target then
            let σ2 := g σ1
            Store.compareAndUpdateStatus σ2 oid o2.status target actor
          else Except.error DomainError.InvalidTransitionError
      | Except.error e => Except.error e
    else Except.error DomainError.InvalidTransitionError

/-- Modelled from the spec: the sequential `transition` call, with no
concurrent interference (section 4.3). -/
def transition (σ : Store) (oid : Nat) (target : OrderStatus)
    (actor : String) : Except DomainError (Order × Store) :=
  transitionI id id σ oid target actor

/-- Modelled from the spec: `cancelOrder` with explicit interference
points, equivalent to `transition` to CANCELLED but first checking
`isCancellable` (section 4.3). -/
def cancelOrderI (f g : Store → Store) (σ : Store) (oid : Nat)
    (actor : String) : Except DomainError (Order × Store) :=
  match Store.getByID σ oid with
  | Except.error e => Except.error e
  | Except.ok o =>
    if isCancellable o.status then
      transitionI f g σ oid OrderStatus.CANCELLED actor
    else Except.error DomainError.InvalidTransitionError

/-- Modelled from the spec: the sequential `cancelOrder` call
(section 4.3). -/
def cancelOrder (σ : Store) (oid : Nat) (actor : String) :
    Except DomainError (Order × Store) :=
  cancelOrderI id id σ oid actor

/-- Modelled from the spec: the per-order loop of one Background Advancer
sweep — for each listed id one independent `transition` attempt; a
per-order failure is caught and the loop continues (section 4.4).  Returns
the final store plus the succeeded and failed counts the Advancer surfaces. -/
def sweepFrom (σ : Store) : List Nat → Store × Nat × Nat
  | [] => (σ, 0, 0)
  | i :: rest =>
    match transition σ i OrderStatus.PROCESSING "scheduler" with
    | Except.ok (_, σ2) =>
      let r := sweepFrom σ2 rest
      (r.1, r.2.1 + 1, r.2.2)
    | Except.error _ =>
      let r := sweepFrom σ rest
      (r.1, r.2.1, r.2.2 + 1)

/-- The ids of all PENDING orders of a store, in creation order. -/
def pendingIds (σ : Store) : List Nat :=
  (σ.orders.filter (fun o => o.status = OrderStatus.PENDING)).map Order.id

/-- Modelled from the spec: one Background Advancer sweep — list all
PENDING orders and attempt `transition(id, PROCESSING, "scheduler")` on
each (section 4.4). -/
def sweep (σ : Store) : Store × Nat × Nat :=
  sweepFrom σ (pendingIds σ)

/-- The store state after one Advancer sweep. -/
def sweepState (σ : Store) : Store :=
  (sweep σ).1

/-- Well-formedness of a store: distinct order ids, all below `nextId`. -/
def Store.WF (σ : Store) : Prop :=
  (σ.orders.map Order.id).Nodup ∧ ∀ o ∈ σ.orders, o.id < σ.nextId

/-- Every persisted order carries the total recomputed from its items. -/
def Store.TotalsOK (σ : Store) : Prop :=
  ∀ o ∈ σ.orders, o.total_amount = totalOf o.items

/-- One item row of the create-order form as the submit handler of
src/static/script.js reads it: the raw product id string, and the results
of `parseInt` on the quantity field and `parseFloat` on the unit-price
field, with `none` standing for NaN (an unparsable field). -/
structure ItemRow where
  productId : String
  quantity : Option Int
  unitPrice : Option Rat
deriving DecidableEq, Repr

/-- JavaScript truthiness of the condition
`productId && quantity && unitPrice` guarding the push in the submit
handler (script.js lines 72-78): the product id must be a non-empty
string, and each parsed number must be neither NaN nor 0. -/
def rowTruthy (r : ItemRow) : Bool :=
  decide (r.productId ≠ "")
    && (match r.quantity with | some q => decide (q ≠ 0) | none => false)
    && (match r.unitPrice with | some p => decide (p ≠ 0) | none => false)

/-- The request item built from a truthy row (script.js lines 73-77). -/
def rowToItem (r : ItemRow) : Item :=
  { product_id := r.productId,
    quantity := r.quantity.getD 0,
    unit_price := r.unitPrice.getD 0 }

/-- The items array the submit handler accumulates: exactly the truthy
rows, in order (script.js lines 66-79). -/
def collectItems (rows : List ItemRow) : List Item :=
  (rows.filter rowTruthy).map rowToItem

/-- The externally visible action of one submit-handler run: either a POST
to /orders/ with a body, or an error message with no request. -/
inductive SubmitAction where
  | sendRequest (customerId : String) (items : List Item)
  | showErrorNoRequest
deriving DecidableEq, Repr

/-- The create-order submit handler of src/static/script.js (lines 60-96):
collect the truthy rows; if none remain, show an error and send nothing;
otherwise POST the customer id and the collected items. -/
def submitHandler (customerId : String) (rows : List ItemRow) : SubmitAction :=
  let items := collectItems rows
  if items.length = 0 then SubmitAction.showErrorNoRequest
  else SubmitAction.sendRequest customerId items

section Lemmas

/-- Looking up a key other than the one `setOrder` wrote is unchanged. -/
theorem find?_setOrder_ne (l : List Order) (oid j : Nat) (o2 : Order)
    (h2 : o2.id = oid) (hj : j ≠ oid) :
    (setOrder l oid o2).find? (fun p => p.id == j) =
      l.find? (fun p => p.id == j) := by
  induction l with
  | nil => rfl
  | cons a l ih =>
    simp only [setOrder, List.map_cons]
    by_cases ha : a.id = oid
    · have hbeq : (a.id == oid) = true := by simpa using ha
      have h1 : (o2.id == j) = false := by
        simp [h2]
        exact fun h => (hj h.symm).elim
      have h3 : (a.id == j) = false := by
        simp [ha]
        exact fun h => (hj h.symm).elim
      simp only [hbeq, if_true]
      rw [List.find?_cons_of_neg _ (by simp [h1]), List.find?_cons_of_neg _ (by simp [h3])]
      exact ih
    · have hbeq : (a.id == oid) = false := by simpa using ha
      simp only [hbeq, Bool.false_eq_true, if_false]
      by_cases haj : a.id = j
      · rw [List.find?_cons_of_pos _ (by simp [haj]), List.find?_cons_of_pos _ (by simp [haj])]
      · rw [List.find?_cons_of_neg _ (by simp [haj]), List.find?_cons_of_neg _ (by simp [haj])]
        exact ih

/-- Looking up the written key after `setOrder` yields the new order,
provided the key was present. -/
theorem find?_setOrder_self (l : List Order) (oid : Nat) (o o2 : Order)
    (h2 : o2.id = oid)
    (hfind : l.find? (fun p => p.id == oid) = some o) :
    (setOrder l oid o2).find? (fun p => p.id == oid) = some o2 := by
  induction l with
  | nil => simp at hfind
  | cons a l ih =>
    simp only [setOrder, List.map_cons]
    by_cases ha : a.id = oid
    · have hbeq : (a.id == oid) = true := by simpa using ha
      simp only [hbeq, if_true]
      rw [List.find?_cons_of_pos _ (by simp [h2])]
    · have hbeq : (a.id == oid) = false := by simpa using ha
      simp only [hbeq, Bool.false_eq_true, if_false]
      rw [List.find?_cons_of_neg _ (by simp [ha])]
      rw [List.find?_cons_of_neg _ (by simp [ha])] at hfind
      exact ih hfind

/-- Membership after `setOrder`: the new order, or an old one under a
different key. -/
theorem mem_setOrder (l : List Order) (oid : Nat) (o2 p : Order)
    (hp : p ∈ setOrder l oid o2) :
    p = o2 ∨ (p ∈ l ∧ p.id ≠ oid) := by
  rcases List.mem_map.mp hp with ⟨q, hq, hqe⟩
  by_cases h : q.id = oid
  · left
    have : (q.id == oid) = true := by simpa using h
    simpa [this] using hqe.symm
  · right
    have hbeq : (q.id == oid) = false := by simpa using h
    have : p = q := by simpa [hbeq] using hqe.symm
    exact this ▸ ⟨hq, h⟩

/-- `setOrder` preserves the key sequence when the new order keeps its key. -/
theorem map_id_setOrder (l : List Order) (oid : Nat) (o2 : Order)
    (h2 : o2.id = oid) :
    (setOrder l oid o2).map Order.id = l.map Order.id := by
  induction l with
  | nil => rfl
  | cons a l ih =>
    simp only [setOrder, List.map_cons] at ih ⊢
    have hhead : (if (a.id == oid) = true then o2 else a).id = a.id := by
      by_cases ha : a.id = oid
      · simp [ha, h2]
      · simp [ha]
    rw [hhead, ih]

/-- Under distinct keys, `find?` returns the member with the key. -/
theorem find?_of_mem_nodup (l : List Order) (o : Order) (i : Nat)
    (hnd : (l.map Order.id).Nodup) (ho : o ∈ l) (hid : o.id = i) :
    l.find? (fun p => p.id == i) = some o := by
  induction l with
  | nil => simp at ho
  | cons a l ih =>
    simp only [List.map_cons, List.nodup_cons] at hnd
    rcases List.mem_cons.mp ho with h | h
    · subst h
      rw [List.find?_cons_of_pos _ (by simp [hid])]
    · have hai : a.id ≠ i := by
        intro he
        exact hnd.1 (he ▸ hid ▸ List.mem_map_of_mem Order.id h)
      rw [List.find?_cons_of_neg _ (by simp [hai])]
      exact ih hnd.2 h

/-- A successful `find?` after an append with a fresh key finds the
appended element. -/
theorem find?_append_fresh (l : List Order) (o : Order)
    (hfresh : ∀ p ∈ l, p.id ≠ o.id) :
    (l ++ [o]).find? (fun p => p.id == o.id) = some o := by
  induction l with
  | nil => simp [List.find?]
  | cons a l ih =>
    have ha : a.id ≠ o.id := hfresh a (List.mem_cons_self a l)
    rw [List.cons_append, List.find?_cons_of_neg _ (by simp [ha])]
    exact ih fun p hp => hfresh p (List.mem_cons_of_mem a hp)

/-- An order stored under a different key survives `setOrder` unchanged. -/
theorem mem_setOrder_of_ne (l : List Order) (oid : Nat) (o2 p : Order)
    (hp : p ∈ l) (hne : p.id ≠ oid) : p ∈ setOrder l oid o2 := by
  unfold setOrder
  have he : (fun q => if q.id == oid then o2 else q) p = p := by simp [hne]
  exact he ▸ List.mem_map_of_mem _ hp

/-- Point lookup succeeds exactly on the stored association. -/
theorem getByID_ok_iff (σ : Store) (oid : Nat) (o : Order) :
    Store.getByID σ oid = Except.ok o ↔
      σ.orders.find? (fun p => p.id == oid) = some o := by
  unfold Store.getByID
  cases hf : σ.orders.find? (fun p => p.id == oid) with
  | none => simp
  | some a => simp

/-- A successful lookup returns a stored order carrying the looked-up id. -/
theorem getByID_ok_mem (σ : Store) (oid : Nat) (o : Order)
    (h : Store.getByID σ oid = Except.ok o) :
    o ∈ σ.orders ∧ o.id = oid := by
  have hf := (getByID_ok_iff σ oid o).mp h
  refine ⟨List.mem_of_find?_eq_some hf, ?_⟩
  have := List.find?_some hf
  simpa using this

/-- Normal form of a successful compare-and-update. -/
theorem compareAndUpdateStatus_ok (σ : Store) (oid : Nat) (o : Order)
    (newStatus : OrderStatus) (actor : String)
    (hfind : σ.orders.find? (fun p => p.id == oid) = some o) :
    Store.compareAndUpdateStatus σ oid o.status newStatus actor =
      Except.ok ({ o with status := newStatus, updated_at := σ.clock },
        { σ with
          orders := setOrder σ.orders oid
            { o with status := newStatus, updated_at := σ.clock }
          history := σ.history ++
            [{ order_id := oid, old_status := o.status, new_status := newStatus,
               changed_at := σ.clock, changed_by := actor }]
          clock := σ.clock + 1 }) := by
  unfold Store.compareAndUpdateStatus
  rw [hfind]
  simp

/-- A compare-and-update against a stale expected status is a conflict. -/
theorem compareAndUpdateStatus_conflict (σ : Store) (oid : Nat) (o : Order)
    (expected newStatus : OrderStatus) (actor : String)
    (hfind : σ.orders.find? (fun p => p.id == oid) = some o)
    (hne : o.status ≠ expected) :
    Store.compareAndUpdateStatus σ oid expected newStatus actor =
      Except.error DomainError.ConflictError := by
  unfold Store.compareAndUpdateStatus
  rw [hfind]
  simp [hne]

/-- Normal form of a successful sequential transition. -/
theorem transition_ok (σ : Store) (oid : Nat) (o : Order)
    (target : OrderStatus) (actor : String)
    (h : Store.getByID σ oid = Except.ok o)
    (hallow : isTransitionAllowed o.status target = true) :
    transition σ oid target actor =
      Except.ok ({ o with status := target, updated_at := σ.clock },
        { σ with
          orders := setOrder σ.orders oid
            { o with status := target, updated_at := σ.clock }
          history := σ.history ++
            [{ order_id := oid, old_status := o.status, new_status := target,
               changed_at := σ.clock, changed_by := actor }]
          clock := σ.clock + 1 }) := by
  have hfind := (getByID_ok_iff σ oid o).mp h
  unfold transition transitionI
  rw [h]
  simp only [id_eq, hallow, if_true]
  rw [compareAndUpdateStatus_ok σ oid o target actor hfind]

/-- A sequential transition outside the lifecycle graph is rejected. -/
theorem transition_not_allowed (σ : Store) (oid : Nat) (o : Order)
    (target : OrderStatus) (actor : String)
    (h : Store.getByID σ oid = Except.ok o)
    (hallow : isTransitionAllowed o.status target = false) :
    transition σ oid target actor =
      Except.error DomainError.InvalidTransitionError := by
  unfold transition transitionI
  rw [h]
  simp [hallow]

/-- Inversion of a successful `computeTotal`. -/
theorem computeTotal_ok_inv (items : List Item) (t : Rat)
    (h : computeTotal items = Except.ok t) :
    t = totalOf items ∧ items ≠ [] ∧ ∀ it ∈ items, itemValid it = true := by
  unfold computeTotal at h
  by_cases he : items.isEmpty
  · rw [if_pos he] at h
    cases h
  · rw [if_neg he] at h
    by_cases ha : items.all itemValid
    · rw [if_pos ha] at h
      refine ⟨by injection h with h2; exact h2.symm, ?_, ?_⟩
      · intro hnil
        exact he (by simp [hnil])
      · exact List.all_eq_true.mp ha
    · rw [if_neg ha] at h
      cases h

/-- An empty or malformed item list makes `computeTotal` fail. -/
theorem computeTotal_invalid (items : List Item)
    (h : items = [] ∨ ∃ it ∈ items, it.quantity < 1 ∨ it.unit_price < (1 / 100 : Rat)) :
    computeTotal items = Except.error DomainError.InvalidItemError := by
  unfold computeTotal
  rcases h with he | ⟨it, hmem, hbad⟩
  · rw [if_pos (by simp [he])]
  · have hne : items.isEmpty = false := by
      cases items with
      | nil => simp at hmem
      | cons a l => rfl
    have hbadv : itemValid it = false := by
      unfold itemValid
      rcases hbad with hq | hpr
      · rw [decide_eq_false (not_le.mpr hq)]
        rfl
      · rw [decide_eq_false (not_le.mpr hpr)]
        simp
    have hall : items.all itemValid = false := by
      rw [Bool.eq_false_iff]
      intro hcon
      have := List.all_eq_true.mp hcon it hmem
      rw [hbadv] at this
      cases this
    simp [hne, hall]

/-- A non-empty list of valid items makes `computeTotal` return the sum. -/
theorem computeTotal_valid (items : List Item) (hne : items ≠ [])
    (hvalid : ∀ it ∈ items, 1 ≤ it.quantity ∧ (1 / 100 : Rat) ≤ it.unit_price) :
    computeTotal items = Except.ok (totalOf items) := by
  unfold computeTotal
  have hie : items.isEmpty = false := by
    cases items with
    | nil => exact absurd rfl hne
    | cons a l => rfl
  have hall : items.all itemValid = true := by
    apply List.all_eq_true.mpr
    intro it hit
    unfold itemValid
    rw [decide_eq_true (hvalid it hit).1, decide_eq_true (hvalid it hit).2]
    rfl
  simp [hie, hall]

/-- A `computeTotal` failure propagates through `createOrder`. -/
theorem createOrder_propagates_error (σ : Store) (cid : String)
    (items : List Item) (e : DomainError)
    (h : computeTotal items = Except.error e) :
    createOrder σ cid items = Except.error e := by
  unfold createOrder
  rw [h]

/-- Normal form of a successful `createOrder` on a store with no key
collision. -/
theorem createOrder_ok (σ : Store) (cid : String) (items : List Item) (t : Rat)
    (hct : computeTotal items = Except.ok t)
    (hfresh : (σ.orders.any fun p => p.id == σ.nextId) = false) :
    createOrder σ cid items =
      Except.ok ({ id := σ.nextId, customer_id := cid, items := items,
                   status := OrderStatus.PENDING, total_amount := t,
                   created_at := σ.clock, updated_at := σ.clock },
        { orders := σ.orders ++
            [{ id := σ.nextId, customer_id := cid, items := items,
               status := OrderStatus.PENDING, total_amount := t,
               created_at := σ.clock, updated_at := σ.clock }],
          history := σ.history, nextId := σ.nextId + 1,
          clock := σ.clock + 1 }) := by
  unfold createOrder Store.create
  rw [hct]
  dsimp only
  rw [hfresh]
  simp

/-- Inversion of a successful compare-and-update. -/
theorem compareAndUpdateStatus_ok_inv (σ : Store) (oid : Nat)
    (expected newStatus : OrderStatus) (actor : String) (o : Order) (σ2 : Store)
    (h : Store.compareAndUpdateStatus σ oid expected newStatus actor =
      Except.ok (o, σ2)) :
    ∃ o0, σ.orders.find? (fun p => p.id == oid) = some o0 ∧
      o0.status = expected ∧
      o = { o0 with status := newStatus, updated_at := σ.clock } ∧
      σ2 = { σ with
        orders := setOrder σ.orders oid o
        history := σ.history ++
          [{ order_id := oid, old_status := expected, new_status := newStatus,
             changed_at := σ.clock, changed_by := actor }]
        clock := σ.clock + 1 } := by
  unfold Store.compareAndUpdateStatus at h
  split at h
  · cases h
  case _ o0 hfind =>
    split at h
    case isTrue hst =>
      dsimp only at h
      injection h with h2
      injection h2 with ho hσ
      subst ho
      subst hσ
      exact ⟨o0, hfind, hst, rfl, by rw [hst]⟩
    case isFalse => cases h

/-- Inversion of a successful `createOrder`. -/
theorem createOrder_ok_inv (σ : Store) (cid : String) (items : List Item)
    (o : Order) (σ2 : Store)
    (h : createOrder σ cid items = Except.ok (o, σ2)) :
    computeTotal items = Except.ok o.total_amount ∧
    o.id = σ.nextId ∧ o.customer_id = cid ∧ o.items = items ∧
    o.status = OrderStatus.PENDING ∧
    o.created_at = σ.clock ∧ o.updated_at = σ.clock ∧
    σ2.orders = σ.orders ++ [o] ∧ σ2.history = σ.history ∧
    σ2.nextId = σ.nextId + 1 ∧ σ2.clock = σ.clock + 1 := by
  unfold createOrder Store.create at h
  split at h
  · cases h
  case _ t heq =>
    dsimp only at h
    by_cases hdup : (σ.orders.any fun p => p.id == σ.nextId) = true
    · rw [if_pos hdup] at h
      cases h
    · rw [if_neg hdup] at h
      injection h with h2
      injection h2 with ho hσ
      subst ho
      subst hσ
      exact ⟨heq, rfl, rfl, rfl, rfl, rfl, rfl, rfl, rfl, rfl, rfl⟩

/-- Inversion of a successful sequential `transition`. -/
theorem transition_ok_inv (σ : Store) (oid : Nat) (target : OrderStatus)
    (actor : String) (o : Order) (σ2 : Store)
    (h : transition σ oid target actor = Except.ok (o, σ2)) :
    ∃ o0, Store.getByID σ oid = Except.ok o0 ∧
      isTransitionAllowed o0.status target = true ∧
      o = { o0 with status := target, updated_at := σ.clock } ∧
      σ2 = { σ with
        orders := setOrder σ.orders oid o
        history := σ.history ++
          [{ order_id := oid, old_status := o0.status, new_status := target,
             changed_at := σ.clock, changed_by := actor }]
        clock := σ.clock + 1 } := by
  unfold transition transitionI at h
  split at h
  · cases h
  case _ o0 hget =>
    split at h
    case isTrue hallow =>
      have hfind := (getByID_ok_iff σ oid o0).mp hget
      simp only [id_eq] at h
      rw [compareAndUpdateStatus_ok σ oid o0 target actor hfind] at h
      injection h with h2
      injection h2 with ho hσ
      exact ⟨o0, hget, hallow, ho.symm, by rw [← hσ, ← ho]⟩
    case isFalse => cases h

/-- The sequential `transition` preserves store well-formedness. -/
theorem WF_transition (σ : Store) (oid : Nat) (target : OrderStatus)
    (actor : String) (o : Order) (σ2 : Store) (hwf : σ.WF)
    (h : transition σ oid target actor = Except.ok (o, σ2)) : σ2.WF := by
  obtain ⟨o0, hget, _, ho, hσ⟩ := transition_ok_inv σ oid target actor o σ2 h
  obtain ⟨hmem, hid⟩ := getByID_ok_mem σ oid o0 hget
  have hoid : o.id = oid := by rw [ho]; exact hid
  constructor
  · rw [hσ]
    simpa [map_id_setOrder σ.orders oid o hoid] using hwf.1
  · intro p hp
    rw [hσ] at hp
    rcases mem_setOrder σ.orders oid o p hp with hpe | ⟨hpl, _⟩
    · rw [hσ]
      subst hpe
      rw [hoid, ← hid]
      exact hwf.2 o0 hmem
    · rw [hσ]
      exact hwf.2 p hpl

/-- The sequential `transition` preserves the totals invariant: the
updated order keeps its items and total. -/
theorem TotalsOK_transition (σ : Store) (oid : Nat) (target : OrderStatus)
    (actor : String) (o : Order) (σ2 : Store) (ht : σ.TotalsOK)
    (h : transition σ oid target actor = Except.ok (o, σ2)) : σ2.TotalsOK := by
  obtain ⟨o0, hget, _, ho, hσ⟩ := transition_ok_inv σ oid target actor o σ2 h
  obtain ⟨hmem, _⟩ := getByID_ok_mem σ oid o0 hget
  intro p hp
  rw [hσ] at hp
  rcases mem_setOrder σ.orders oid o p hp with hpe | ⟨hpl, _⟩
  · subst hpe
    rw [ho]
    exact ht o0 hmem
  · exact ht p hpl

/-- Every listed id gets exactly one attempt: the succeeded and failed
counts of a sweep always add up to the number of listed orders, so a
per-order failure never aborts the loop. -/
theorem sweepFrom_counts (ids : List Nat) :
    ∀ σ : Store, (sweepFrom σ ids).2.1 + (sweepFrom σ ids).2.2 = ids.length := by
  induction ids with
  | nil => intro σ; rfl
  | cons i rest ih =>
    intro σ
    cases htr : transition σ i OrderStatus.PROCESSING "scheduler" with
    | ok r =>
      obtain ⟨ro, rσ⟩ := r
      have hs : (sweepFrom σ (i :: rest)).2.1 = (sweepFrom rσ rest).2.1 + 1 := by
        conv_lhs => unfold sweepFrom; rw [htr]
      have hf : (sweepFrom σ (i :: rest)).2.2 = (sweepFrom rσ rest).2.2 := by
        conv_lhs => unfold sweepFrom; rw [htr]
      have := ih rσ
      rw [hs, hf, List.length_cons]
      omega
    | error e =>
      have hs : (sweepFrom σ (i :: rest)).2.1 = (sweepFrom σ rest).2.1 := by
        conv_lhs => unfold sweepFrom; rw [htr]
      have hf : (sweepFrom σ (i :: rest)).2.2 = (sweepFrom σ rest).2.2 + 1 := by
        conv_lhs => unfold sweepFrom; rw [htr]
      have := ih σ
      rw [hs, hf, List.length_cons]
      omega

/-- After running the per-order loop over a list of ids that covers
exactly the PENDING orders of a well-keyed store, no PENDING order
remains. -/
theorem sweepFrom_clears (ids : List Nat) :
    ∀ σ : Store,
      (σ.orders.map Order.id).Nodup →
      ids.Nodup →
      (∀ o ∈ σ.orders, o.status = OrderStatus.PENDING → o.id ∈ ids) →
      (∀ i ∈ ids, ∃ o ∈ σ.orders, o.id = i ∧ o.status = OrderStatus.PENDING) →
      ∀ o ∈ (sweepFrom σ ids).1.orders, o.status ≠ OrderStatus.PENDING := by
  induction ids with
  | nil =>
    intro σ _ _ hcov _ o ho hp
    exact absurd (hcov o ho hp) (List.not_mem_nil _)
  | cons i rest ih =>
    intro σ hnd hidnd hcov hlist
    obtain ⟨o0, ho0mem, ho0id, ho0p⟩ := hlist i (List.mem_cons_self i rest)
    have hfind := find?_of_mem_nodup σ.orders o0 i hnd ho0mem ho0id
    have hget : Store.getByID σ i = Except.ok o0 := (getByID_ok_iff σ i o0).mpr hfind
    have hallow : isTransitionAllowed o0.status OrderStatus.PROCESSING = true := by
      rw [ho0p]; rfl
    have htr := transition_ok σ i o0 OrderStatus.PROCESSING "scheduler" hget hallow
    set o2 : Order := { o0 with status := OrderStatus.PROCESSING, updated_at := σ.clock } with ho2
    set σ2 : Store :=
      { σ with
        orders := setOrder σ.orders i o2
        history := σ.history ++
          [{ order_id := i, old_status := o0.status, new_status := OrderStatus.PROCESSING,
             changed_at := σ.clock, changed_by := "scheduler" }]
        clock := σ.clock + 1 } with hσ2
    have hstep : (sweepFrom σ (i :: rest)).1 = (sweepFrom σ2 rest).1 := by
      conv_lhs => unfold sweepFrom; rw [htr]
    rw [hstep]
    have ho2id : o2.id = i := ho0id
    have hnotin : i ∉ rest := (List.nodup_cons.mp hidnd).1
    refine ih σ2 ?_ (List.nodup_cons.mp hidnd).2 ?_ ?_
    · simpa [hσ2, map_id_setOrder σ.orders i o2 ho2id] using hnd
    · intro p hp hpst
      rcases mem_setOrder σ.orders i o2 p hp with hpe | ⟨hpl, hpne⟩
      · exfalso
        rw [hpe] at hpst
        exact absurd hpst (by rw [ho2]; intro hco; cases hco)
      · have := hcov p hpl hpst
        rcases List.mem_cons.mp this with he | hm
        · exact absurd he hpne
        · exact hm
    · intro j hj
      obtain ⟨o1, ho1mem, ho1id, ho1p⟩ := hlist j (List.mem_cons_of_mem i hj)
      have hjne : o1.id ≠ i := by
        rw [ho1id]
        intro hji
        exact hnotin (hji ▸ hj)
      exact ⟨o1, mem_setOrder_of_ne σ.orders i o2 o1 ho1mem hjne, ho1id, ho1p⟩

/-- A full sweep of a well-keyed store leaves no PENDING order behind. -/
theorem sweep_clears (σ : Store) (hnd : (σ.orders.map Order.id).Nodup) :
    ∀ o ∈ (sweepState σ).orders, o.status ≠ OrderStatus.PENDING := by
  unfold sweepState sweep
  refine sweepFrom_clears (pendingIds σ) σ hnd ?_ ?_ ?_
  · unfold pendingIds
    exact hnd.sublist (List.Sublist.map Order.id (List.filter_sublist σ.orders))
  · intro o ho hp
    unfold pendingIds
    exact List.mem_map_of_mem Order.id
      (List.mem_filter.mpr ⟨ho, decide_eq_true hp⟩)
  · intro i hi
    unfold pendingIds at hi
    rcases List.mem_map.mp hi with ⟨o, ho, hoid⟩
    have := List.mem_filter.mp ho
    exact ⟨o, this.1, hoid, of_decide_eq_true this.2⟩

/-- A sweep of a store with no PENDING order changes nothing and reports
zero successes and zero failures. -/
theorem sweep_of_no_pending (σ : Store)
    (h : ∀ o ∈ σ.orders, o.status ≠ OrderStatus.PENDING) :
    sweep σ = (σ, 0, 0) := by
  unfold sweep
  have hnil : pendingIds σ = [] := by
    unfold pendingIds
    have : σ.orders.filter (fun o => o.status = OrderStatus.PENDING) = [] := by
      rw [List.filter_eq_nil_iff]
      intro a ha
      simpa using h a ha
    rw [this]
    rfl
  rw [hnil]
  rfl

end Lemmas

section Fixtures

/-- First sample item of the concrete scenario in the spec (section 8). -/
def itemA : Item := { product_id := "p1", quantity := 2, unit_price := 10 }

/-- Second sample item of the concrete scenario in the spec (section 8). -/
def itemB : Item := { product_id := "p2", quantity := 1, unit_price := 5 }

/-- A persisted PENDING order holding the two sample items. -/
def orderA : Order :=
  { id := 0, customer_id := "c1", items := [itemA, itemB],
    status := OrderStatus.PENDING, total_amount := 25,
    created_at := 0, updated_at := 0 }

/-- A store holding exactly the sample PENDING order. -/
def storeA : Store := { orders := [orderA], history := [], nextId := 1, clock := 1 }

/-- A store holding the sample order already SHIPPED. -/
def storeShipped : Store :=
  { orders := [{ orderA with status := OrderStatus.SHIPPED }],
    history := [], nextId := 1, clock := 1 }

end Fixtures

section Claims

/-- C1: for every stored order, a transition succeeds exactly when the
pair (current status, target) is one of the four lifecycle edges
PENDING to PROCESSING, PROCESSING to SHIPPED, SHIPPED to DELIVERED and
PENDING to CANCELLED; for every other pair — self-loops, backward edges
and any edge out of DELIVERED or CANCELLED included — the transition
fails with InvalidTransitionError. -/
theorem C1_transition_graph (σ : Store) (oid : Nat) (o : Order)
    (target : OrderStatus) (actor : String)
    (h : Store.getByID σ oid = Except.ok o) :
    (isTransitionAllowed o.status target = true ↔
      ((o.status = OrderStatus.PENDING ∧ target = OrderStatus.PROCESSING) ∨
       (o.status = OrderStatus.PROCESSING ∧ target = OrderStatus.SHIPPED) ∨
       (o.status = OrderStatus.SHIPPED ∧ target = OrderStatus.DELIVERED) ∨
       (o.status = OrderStatus.PENDING ∧ target = OrderStatus.CANCELLED))) ∧
    (isTransitionAllowed o.status target = true →
      ∃ p, transition σ oid target actor = Except.ok p ∧
        p.1.status = target) ∧
    (isTransitionAllowed o.status target = false →
      transition σ oid target actor =
        Except.error DomainError.InvalidTransitionError) := by
  have hgen : ∀ f t : OrderStatus, isTransitionAllowed f t = true ↔
      ((f = OrderStatus.PENDING ∧ t = OrderStatus.PROCESSING) ∨
       (f = OrderStatus.PROCESSING ∧ t = OrderStatus.SHIPPED) ∨
       (f = OrderStatus.SHIPPED ∧ t = OrderStatus.DELIVERED) ∨
       (f = OrderStatus.PENDING ∧ t = OrderStatus.CANCELLED)) := by
    intro f t
    cases f <;> cases t <;> decide
  refine ⟨hgen o.status target, ?_, ?_⟩
  · intro ha
    exact ⟨_, transition_ok σ oid o target actor h ha, rfl⟩
  · intro ha
    exact transition_not_allowed σ oid o target actor h ha

/-- Witness for C1: on the sample PENDING order the PENDING to PROCESSING
transition succeeds. -/
theorem C1_transition_graph_witness :
    ∃ p, transition storeA 0 OrderStatus.PROCESSING "client" = Except.ok p ∧
      p.1.status = OrderStatus.PROCESSING := by
  have h := C1_transition_graph storeA 0 orderA OrderStatus.PROCESSING "client" rfl
  exact h.2.1 rfl

/-- C2: the totals invariant — if every persisted order of a store has
total equal to the sum of quantity times unit price over its items, the
same holds after each mutating operation, and a created order carries a
total recomputed from its items (none is accepted as input: `createOrder`
takes no total argument). -/
theorem C2_totals_invariant (σ : Store) (ht : Store.TotalsOK σ) :
    (∀ cid items o σ2, createOrder σ cid items = Except.ok (o, σ2) →
        o.total_amount = totalOf o.items ∧ Store.TotalsOK σ2) ∧
    (∀ oid target actor o σ2,
        transition σ oid target actor = Except.ok (o, σ2) →
        Store.TotalsOK σ2) ∧
    (∀ oid actor o σ2,
        cancelOrder σ oid actor = Except.ok (o, σ2) → Store.TotalsOK σ2) ∧
    (∀ oid expected newStatus actor o σ2,
        Store.compareAndUpdateStatus σ oid expected newStatus actor =
          Except.ok (o, σ2) →
        Store.TotalsOK σ2) := by
  have hcas : ∀ oid expected newStatus actor o σ2,
      Store.compareAndUpdateStatus σ oid expected newStatus actor =
        Except.ok (o, σ2) → Store.TotalsOK σ2 := by
    intro oid expected newStatus actor o σ2 h
    obtain ⟨o0, hfind, _, ho, hσ⟩ :=
      compareAndUpdateStatus_ok_inv σ oid expected newStatus actor o σ2 h
    intro p hp
    rw [hσ] at hp
    rcases mem_setOrder σ.orders oid o p hp with hpe | ⟨hpl, _⟩
    · subst hpe
      rw [ho]
      exact ht o0 (List.mem_of_find?_eq_some hfind)
    · exact ht p hpl
  refine ⟨?_, ?_, ?_, hcas⟩
  · intro cid items o σ2 h
    obtain ⟨hct, _, _, hitems, _, _, _, hord, _, _, _⟩ :=
      createOrder_ok_inv σ cid items o σ2 h
    have htot : o.total_amount = totalOf o.items := by
      rw [hitems]
      exact (computeTotal_ok_inv items o.total_amount hct).1
    refine ⟨htot, ?_⟩
    intro p hp
    rw [hord] at hp
    rcases List.mem_append.mp hp with hpl | hpo
    · exact ht p hpl
    · rw [List.mem_singleton.mp hpo]
      exact htot
  · intro oid target actor o σ2 h
    exact TotalsOK_transition σ oid target actor o σ2 ht h
  · intro oid actor o σ2 h
    unfold cancelOrder cancelOrderI at h
    split at h
    · cases h
    case _ o0 hget =>
      split at h
      case isTrue =>
        exact TotalsOK_transition σ oid OrderStatus.CANCELLED actor o σ2 ht h
      case isFalse => cases h

/-- Witness for C2: the totals invariant holds for the sample store and
is preserved by the sample PENDING to PROCESSING transition. -/
theorem C2_totals_invariant_witness :
    Store.TotalsOK
      { orders := setOrder storeA.orders 0
          { orderA with status := OrderStatus.PROCESSING, updated_at := 1 }
        history := [{ order_id := 0
                      old_status := OrderStatus.PENDING
                      new_status := OrderStatus.PROCESSING
                      changed_at := 1
                      changed_by := "scheduler" }]
        nextId := 1
        clock := 2 } := by
  have ht : Store.TotalsOK storeA := by
    intro o ho
    have he : o = orderA := by simpa [storeA] using ho
    subst he
    show (25 : Rat) = totalOf [itemA, itemB]
    norm_num [totalOf, itemA, itemB]
  exact (C2_totals_invariant storeA ht).2.1 0 OrderStatus.PROCESSING "scheduler"
    { orderA with status := OrderStatus.PROCESSING, updated_at := 1 }
    { orders := setOrder storeA.orders 0
        { orderA with status := OrderStatus.PROCESSING, updated_at := 1 }
      history := [{ order_id := 0
                    old_status := OrderStatus.PENDING
                    new_status := OrderStatus.PROCESSING
                    changed_at := 1
                    changed_by := "scheduler" }]
      nextId := 1
      clock := 2 }
    (transition_ok storeA 0 orderA OrderStatus.PROCESSING "scheduler" rfl rfl)

/-- C3: compare-and-update succeeds exactly when the stored status equals
the expected one; on success it updates `updated_at` to the store clock,
appends exactly one history entry and returns the updated order (still
readable under its id); on mismatch it fails with ConflictError and, the
operation returning no store, the stored order is unchanged. -/
theorem C3_compare_and_update (σ : Store) (oid : Nat)
    (expected newStatus : OrderStatus) (actor : String) (o : Order)
    (h : Store.getByID σ oid = Except.ok o) :
    (o.status = expected →
      ∃ o2 σ2,
        Store.compareAndUpdateStatus σ oid expected newStatus actor =
          Except.ok (o2, σ2) ∧
        o2 = { o with status := newStatus, updated_at := σ.clock } ∧
        σ2.history = σ.history ++
          [{ order_id := oid, old_status := expected, new_status := newStatus,
             changed_at := σ.clock, changed_by := actor }] ∧
        Store.getByID σ2 oid = Except.ok o2) ∧
    (o.status ≠ expected →
      Store.compareAndUpdateStatus σ oid expected newStatus actor =
        Except.error DomainError.ConflictError) := by
  have hfind := (getByID_ok_iff σ oid o).mp h
  have hid : o.id = oid := (getByID_ok_mem σ oid o h).2
  constructor
  · intro hst
    subst hst
    refine ⟨_, _, compareAndUpdateStatus_ok σ oid o newStatus actor hfind,
      rfl, rfl, ?_⟩
    exact (getByID_ok_iff _ oid _).mpr
      (find?_setOrder_self σ.orders oid o _ hid hfind)
  · intro hne
    exact compareAndUpdateStatus_conflict σ oid o expected newStatus actor
      hfind hne

/-- Witness for C3: compare-and-update with the matching expected status
succeeds on the sample store. -/
theorem C3_compare_and_update_witness :
    ∃ o2 σ2,
      Store.compareAndUpdateStatus storeA 0 OrderStatus.PENDING
        OrderStatus.PROCESSING "client" = Except.ok (o2, σ2) ∧
      o2 = { orderA with
             status := OrderStatus.PROCESSING
             updated_at := storeA.clock } ∧
      σ2.history = storeA.history ++
        [{ order_id := 0
           old_status := OrderStatus.PENDING
           new_status := OrderStatus.PROCESSING
           changed_at := storeA.clock
           changed_by := "client" }] ∧
      Store.getByID σ2 0 = Except.ok o2 := by
  have h := C3_compare_and_update storeA 0 OrderStatus.PENDING
    OrderStatus.PROCESSING "client" orderA rfl
  exact h.1 rfl

/-- C5: `cancelOrder` succeeds exactly when the order is PENDING; for
every other status it fails with InvalidTransitionError, returning no
updated store. -/
theorem C5_cancel_only_pending (σ : Store) (oid : Nat) (o : Order)
    (actor : String) (h : Store.getByID σ oid = Except.ok o) :
    (o.status = OrderStatus.PENDING →
      ∃ p, cancelOrder σ oid actor = Except.ok p ∧
        p.1.status = OrderStatus.CANCELLED) ∧
    (o.status ≠ OrderStatus.PENDING →
      cancelOrder σ oid actor =
        Except.error DomainError.InvalidTransitionError) := by
  constructor
  · intro hp
    have hallow : isTransitionAllowed o.status OrderStatus.CANCELLED = true := by
      rw [hp]; rfl
    have hc : isCancellable o.status = true := by rw [hp]; rfl
    have htr := transition_ok σ oid o OrderStatus.CANCELLED actor h hallow
    unfold cancelOrder cancelOrderI
    rw [h]
    simp only [hc, if_true]
    exact ⟨_, htr, rfl⟩
  · intro hp
    have hc : isCancellable o.status = false := by
      unfold isCancellable
      simpa using hp
    unfold cancelOrder cancelOrderI
    rw [h]
    simp [hc]

/-- Witness for C5: cancelling the sample PENDING order succeeds, and
cancelling the SHIPPED variant fails with InvalidTransitionError. -/
theorem C5_cancel_only_pending_witness :
    (∃ p, cancelOrder storeA 0 "client" = Except.ok p ∧
      p.1.status = OrderStatus.CANCELLED) ∧
    cancelOrder storeShipped 0 "client" =
      Except.error DomainError.InvalidTransitionError := by
  constructor
  · exact (C5_cancel_only_pending storeA 0 orderA "client" rfl).1 rfl
  · exact (C5_cancel_only_pending storeShipped 0
      { orderA with status := OrderStatus.SHIPPED } "client" rfl).2 (by decide)

/-- C6: `createOrder` fails with InvalidItemError exactly when the item
list is empty or some item has quantity below 1 or unit price below 0.01;
otherwise it assigns the fresh unique id `nextId` (distinct from every
persisted id), PENDING status and the computed total, and returns the
full order. -/
theorem C6_create_order (σ : Store) (cid : String) (items : List Item)
    (hwf : σ.WF) :
    ((items = [] ∨ ∃ it ∈ items,
        it.quantity < 1 ∨ it.unit_price < (1 / 100 : Rat)) →
      createOrder σ cid items = Except.error DomainError.InvalidItemError) ∧
    ((items ≠ [] ∧ ∀ it ∈ items,
        1 ≤ it.quantity ∧ (1 / 100 : Rat) ≤ it.unit_price) →
      ∃ o σ2, createOrder σ cid items = Except.ok (o, σ2) ∧
        o.id = σ.nextId ∧ (∀ p ∈ σ.orders, p.id ≠ o.id) ∧
        o.status = OrderStatus.PENDING ∧ o.total_amount = totalOf items ∧
        o.customer_id = cid ∧ o.items = items) := by
  constructor
  · intro hbad
    exact createOrder_propagates_error σ cid items DomainError.InvalidItemError
      (computeTotal_invalid items hbad)
  · rintro ⟨hne, hvalid⟩
    have hct := computeTotal_valid items hne hvalid
    have hfresh : (σ.orders.any fun p => p.id == σ.nextId) = false := by
      rw [Bool.eq_false_iff]
      intro hany
      rcases List.any_eq_true.mp hany with ⟨p, hpmem, hpe⟩
      have hpe2 : p.id = σ.nextId := by simpa using hpe
      exact absurd hpe2 (Nat.ne_of_lt (hwf.2 p hpmem))
    refine ⟨_, _, createOrder_ok σ cid items (totalOf items) hct hfresh,
      rfl, ?_, rfl, rfl, rfl, rfl⟩
    intro p hp
    exact Nat.ne_of_lt (hwf.2 p hp)

/-- Witness for C6: creating an order from the two sample items on the
sample store succeeds with a fresh id and the computed total, while an
empty item list is rejected with InvalidItemError. -/
theorem C6_create_order_witness :
    (∃ o σ2, createOrder storeA "c2" [itemA, itemB] = Except.ok (o, σ2) ∧
      o.id = storeA.nextId ∧ (∀ p ∈ storeA.orders, p.id ≠ o.id) ∧
      o.status = OrderStatus.PENDING ∧
      o.total_amount = totalOf [itemA, itemB] ∧
      o.customer_id = "c2" ∧ o.items = [itemA, itemB]) ∧
    createOrder storeA "c2" [] =
      Except.error DomainError.InvalidItemError := by
  have hwf : Store.WF storeA := ⟨by decide, by decide⟩
  constructor
  · refine (C6_create_order storeA "c2" [itemA, itemB] hwf).2 ⟨by decide, ?_⟩
    intro it hit
    have : it = itemA ∨ it = itemB := by simpa using hit
    rcases this with h | h <;> subst h <;> constructor <;> norm_num [itemA, itemB]
  · exact (C6_create_order storeA "c2" [] hwf).1 (Or.inl rfl)

/-- C9: after a successful `createOrder`, an immediate `getOrder` on the
returned id yields exactly the returned order — same id, customer, items
in insertion order, PENDING status and computed total. -/
theorem C9_round_trip (σ : Store) (cid : String) (items : List Item)
    (o : Order) (σ2 : Store) (hwf : σ.WF)
    (h : createOrder σ cid items = Except.ok (o, σ2)) :
    getOrder σ2 o.id = Except.ok o ∧
    o.id = σ.nextId ∧ o.customer_id = cid ∧ o.items = items ∧
    o.status = OrderStatus.PENDING ∧ o.total_amount = totalOf items := by
  obtain ⟨hct, hid, hcid, hitems, hst, _, _, hord, _, _, _⟩ :=
    createOrder_ok_inv σ cid items o σ2 h
  have hfresh : ∀ p ∈ σ.orders, p.id ≠ o.id := by
    intro p hp
    rw [hid]
    exact Nat.ne_of_lt (hwf.2 p hp)
  refine ⟨?_, hid, hcid, hitems, hst, ?_⟩
  · unfold getOrder
    apply (getByID_ok_iff σ2 o.id o).mpr
    rw [hord]
    exact find?_append_fresh σ.orders o hfresh
  · exact (computeTotal_ok_inv items o.total_amount hct).1

/-- The order produced by creating the two sample items on the sample
store. -/
def orderW : Order :=
  { id := 1, customer_id := "c2", items := [itemA, itemB],
    status := OrderStatus.PENDING, total_amount := totalOf [itemA, itemB],
    created_at := 1, updated_at := 1 }

/-- The sample store right after that creation. -/
def storeW : Store :=
  { orders := storeA.orders ++ [orderW], history := [], nextId := 2, clock := 2 }

/-- Witness for C9: the concrete created order is read back unchanged. -/
theorem C9_round_trip_witness :
    getOrder storeW orderW.id = Except.ok orderW ∧
    orderW.id = storeA.nextId ∧ orderW.customer_id = "c2" ∧
    orderW.items = [itemA, itemB] ∧
    orderW.status = OrderStatus.PENDING ∧
    orderW.total_amount = totalOf [itemA, itemB] := by
  have hwf : Store.WF storeA := ⟨by decide, by decide⟩
  have hvalid : ∀ it ∈ [itemA, itemB],
      1 ≤ it.quantity ∧ (1 / 100 : Rat) ≤ it.unit_price := by
    intro it hit
    have : it = itemA ∨ it = itemB := by simpa using hit
    rcases this with h | h <;> subst h <;> constructor <;> norm_num [itemA, itemB]
  have hct := computeTotal_valid [itemA, itemB] (by simp) hvalid
  have h := createOrder_ok storeA "c2" [itemA, itemB] (totalOf [itemA, itemB])
    hct (by decide)
  exact C9_round_trip storeA "c2" [itemA, itemB] orderW storeW hwf h

/-- Behavior of a `transition` call whose compare-and-update races with a
concurrent writer that commits `σ1` between the read and the update: the
first compare-and-update conflicts; if the re-read order is already at the
target the call is a no-op success returning the winner state unchanged,
and if the now-current status admits no edge to the target the call fails
with InvalidTransitionError. -/
theorem transitionI_interfered (σ σ1 : Store) (oid : Nat) (o o1 : Order)
    (target : OrderStatus) (actor : String)
    (h : Store.getByID σ oid = Except.ok o)
    (hallow : isTransitionAllowed o.status target = true)
    (hfind1 : σ1.orders.find? (fun p => p.id == oid) = some o1)
    (hne : o1.status ≠ o.status) :
    (o1.status = target →
      transitionI (fun _ => σ1) id σ oid target actor = Except.ok (o1, σ1)) ∧
    (o1.status ≠ target → isTransitionAllowed o1.status target = false →
      transitionI (fun _ => σ1) id σ oid target actor =
        Except.error DomainError.InvalidTransitionError) := by
  have hget1 : Store.getByID σ1 oid = Except.ok o1 :=
    (getByID_ok_iff σ1 oid o1).mpr hfind1
  constructor
  · intro heq
    unfold transitionI
    rw [h]
    simp only [hallow, if_true]
    rw [compareAndUpdateStatus_conflict σ1 oid o1 o.status target actor
      hfind1 hne]
    rw [hget1]
    simp [heq]
  · intro hne2 hnall
    unfold transitionI
    rw [h]
    simp only [hallow, if_true]
    rw [compareAndUpdateStatus_conflict σ1 oid o1 o.status target actor
      hfind1 hne]
    rw [hget1]
    simp [hne2, hnall]

/-- C4: two calls of `transition(id, PROCESSING)` in immediate succession
append exactly one history entry, and the second call — whose
compare-and-update loses the race to the first, as the claim describes via
the ConflictError path — re-reads the order, finds it already at the
target and reports success with no state change. -/
theorem C4_transition_idempotent (σ : Store) (oid : Nat) (o : Order)
    (actor1 actor2 : String)
    (h : Store.getByID σ oid = Except.ok o)
    (hp : o.status = OrderStatus.PENDING) :
    ∃ o1 σ1,
      transition σ oid OrderStatus.PROCESSING actor1 = Except.ok (o1, σ1) ∧
      σ1.history.length = σ.history.length + 1 ∧
      o1.status = OrderStatus.PROCESSING ∧
      transitionI (fun _ => σ1) id σ oid OrderStatus.PROCESSING actor2 =
        Except.ok (o1, σ1) := by
  have hfind := (getByID_ok_iff σ oid o).mp h
  have hid : o.id = oid := (getByID_ok_mem σ oid o h).2
  have hallow : isTransitionAllowed o.status OrderStatus.PROCESSING = true := by
    rw [hp]; rfl
  have htr := transition_ok σ oid o OrderStatus.PROCESSING actor1 h hallow
  refine ⟨_, _, htr, by simp, rfl, ?_⟩
  have hfind1 := find?_setOrder_self σ.orders oid o
    { o with status := OrderStatus.PROCESSING, updated_at := σ.clock } hid hfind
  have hne :
      ({ o with status := OrderStatus.PROCESSING, updated_at := σ.clock } : Order).status
        ≠ o.status := by
    simp [hp]
  exact (transitionI_interfered σ _ oid o _ OrderStatus.PROCESSING actor2
    h hallow hfind1 hne).1 rfl

/-- Witness for C4 on the sample store. -/
theorem C4_transition_idempotent_witness :
    ∃ o1 σ1,
      transition storeA 0 OrderStatus.PROCESSING "client" =
        Except.ok (o1, σ1) ∧
      σ1.history.length = storeA.history.length + 1 ∧
      o1.status = OrderStatus.PROCESSING ∧
      transitionI (fun _ => σ1) id storeA 0 OrderStatus.PROCESSING "client2" =
        Except.ok (o1, σ1) :=
  C4_transition_idempotent storeA 0 orderA "client" "client2" rfl rfl

/-- C7: the Background Advancer sweep is idempotent — iterating it any
number of times beyond the first changes nothing and reports zero further
successes — and within one sweep every listed order gets exactly one
independent attempt: succeeded plus failed counts always equal the number
of listed orders, so a per-order failure never aborts the loop. -/
theorem C7_advancer_idempotent (σ : Store) (hwf : σ.WF) :
    sweep (sweepState σ) = (sweepState σ, 0, 0) ∧
    (∀ k : Nat, 1 ≤ k → sweepState^[k] σ = sweepState σ) ∧
    (∀ (σ2 : Store) (ids : List Nat),
      (sweepFrom σ2 ids).2.1 + (sweepFrom σ2 ids).2.2 = ids.length) := by
  have hclear := sweep_clears σ hwf.1
  have hfix : sweep (sweepState σ) = (sweepState σ, 0, 0) :=
    sweep_of_no_pending _ hclear
  have hfix1 : sweepState (sweepState σ) = sweepState σ := by
    show (sweep (sweepState σ)).1 = sweepState σ
    rw [hfix]
  refine ⟨hfix, ?_, fun σ2 ids => sweepFrom_counts ids σ2⟩
  intro k hk
  obtain ⟨m, rfl⟩ : ∃ m, k = m + 1 := ⟨k - 1, by omega⟩
  clear hk
  induction m with
  | zero => rfl
  | succ n ihn =>
    rw [Function.iterate_succ_apply', ihn]
    exact hfix1

/-- Witness for C7 on the sample store: a second sweep changes nothing. -/
theorem C7_advancer_idempotent_witness :
    sweep (sweepState storeA) = (sweepState storeA, 0, 0) :=
  (C7_advancer_idempotent storeA ⟨by decide, by decide⟩).1

/-- C8: when `cancelOrder` and the Advancer transition race on the same
PENDING order, whichever compare-and-update lands first wins; the loser —
modelled as the call whose compare-and-update runs after the winner
committed — observes the non-PENDING current status, fails with
InvalidTransitionError, and the winner status is still what a re-read of
the store returns. -/
theorem C8_cancel_vs_advance_race (σ : Store) (oid : Nat) (o : Order)
    (h : Store.getByID σ oid = Except.ok o)
    (hp : o.status = OrderStatus.PENDING) :
    (∃ o1 σ1,
      transition σ oid OrderStatus.PROCESSING "scheduler" =
        Except.ok (o1, σ1) ∧
      o1.status = OrderStatus.PROCESSING ∧
      cancelOrderI (fun _ => σ1) id σ oid "client" =
        Except.error DomainError.InvalidTransitionError ∧
      Store.getByID σ1 oid = Except.ok o1) ∧
    (∃ o1 σ1,
      cancelOrder σ oid "client" = Except.ok (o1, σ1) ∧
      o1.status = OrderStatus.CANCELLED ∧
      transitionI (fun _ => σ1) id σ oid OrderStatus.PROCESSING "scheduler" =
        Except.error DomainError.InvalidTransitionError ∧
      Store.getByID σ1 oid = Except.ok o1) := by
  have hfind := (getByID_ok_iff σ oid o).mp h
  have hid : o.id = oid := (getByID_ok_mem σ oid o h).2
  have hallowP : isTransitionAllowed o.status OrderStatus.PROCESSING = true := by
    rw [hp]; rfl
  have hallowC : isTransitionAllowed o.status OrderStatus.CANCELLED = true := by
    rw [hp]; rfl
  have hcanc : isCancellable o.status = true := by rw [hp]; rfl
  constructor
  · -- the Advancer wins, the cancellation loses
    have htr := transition_ok σ oid o OrderStatus.PROCESSING "scheduler" h hallowP
    refine ⟨_, _, htr, rfl, ?_, ?_⟩
    · have hfind1 := find?_setOrder_self σ.orders oid o
        { o with status := OrderStatus.PROCESSING, updated_at := σ.clock } hid hfind
      have hne :
          ({ o with status := OrderStatus.PROCESSING, updated_at := σ.clock } : Order).status
            ≠ o.status := by
        simp [hp]
      unfold cancelOrderI
      rw [h]
      simp only [hcanc, if_true]
      exact (transitionI_interfered σ _ oid o _ OrderStatus.CANCELLED "client"
        h hallowC hfind1 hne).2 (by simp) (by simp; rfl)
    · exact (getByID_ok_iff _ oid _).mpr
        (find?_setOrder_self σ.orders oid o _ hid hfind)
  · -- the cancellation wins, the Advancer loses
    have htr := transition_ok σ oid o OrderStatus.CANCELLED "client" h hallowC
    have hwin : cancelOrder σ oid "client" =
        Except.ok
          ({ o with status := OrderStatus.CANCELLED, updated_at := σ.clock },
          { σ with
            orders := setOrder σ.orders oid
              { o with status := OrderStatus.CANCELLED, updated_at := σ.clock }
            history := σ.history ++
              [{ order_id := oid
                 old_status := o.status
                 new_status := OrderStatus.CANCELLED
                 changed_at := σ.clock
                 changed_by := "client" }]
            clock := σ.clock + 1 }) := by
      unfold cancelOrder cancelOrderI
      rw [h]
      simp only [hcanc, if_true]
      exact htr
    refine ⟨_, _, hwin, rfl, ?_, ?_⟩
    · have hfind1 := find?_setOrder_self σ.orders oid o
        { o with status := OrderStatus.CANCELLED, updated_at := σ.clock } hid hfind
      have hne :
          ({ o with status := OrderStatus.CANCELLED, updated_at := σ.clock } : Order).status
            ≠ o.status := by
        simp [hp]
      exact (transitionI_interfered σ _ oid o _ OrderStatus.PROCESSING
        "scheduler" h hallowP hfind1 hne).2 (by simp) (by simp; rfl)
    · exact (getByID_ok_iff _ oid _).mpr
        (find?_setOrder_self σ.orders oid o _ hid hfind)

/-- Witness for C8 on the sample store. -/
theorem C8_cancel_vs_advance_race_witness :
    ∃ o1 σ1,
      transition storeA 0 OrderStatus.PROCESSING "scheduler" =
        Except.ok (o1, σ1) ∧
      o1.status = OrderStatus.PROCESSING ∧
      cancelOrderI (fun _ => σ1) id storeA 0 "client" =
        Except.error DomainError.InvalidTransitionError ∧
      Store.getByID σ1 0 = Except.ok o1 :=
  (C8_cancel_vs_advance_race storeA 0 orderA rfl rfl).1

/-- C10: the UI submit handler silently excludes every row whose product
id is empty or whose quantity or unit price parses to 0 or NaN; if every
row is excluded it sends no request and shows an error; hence every
request it does send carries a non-empty items list in which each item has
a non-empty product id and nonzero quantity and unit price. -/
theorem C10_submit_filter (customerId : String) (rows : List ItemRow) :
    (∀ r ∈ rows, rowTruthy r = false ↔
      (r.productId = "" ∨ r.quantity = none ∨ r.quantity = some 0 ∨
       r.unitPrice = none ∨ r.unitPrice = some 0)) ∧
    (rows.filter rowTruthy = [] →
      submitHandler customerId rows = SubmitAction.showErrorNoRequest) ∧
    (∀ items,
      submitHandler customerId rows = SubmitAction.sendRequest customerId items →
      items ≠ [] ∧ ∀ it ∈ items,
        it.product_id ≠ "" ∧ it.quantity ≠ 0 ∧ it.unit_price ≠ 0) := by
  refine ⟨?_, ?_, ?_⟩
  · intro r _
    rcases r with ⟨pid, q, pr⟩
    unfold rowTruthy
    cases q with
    | none => simp
    | some a =>
      cases pr with
      | none => simp
      | some b =>
        simp only [Bool.and_eq_false_iff, decide_eq_false_iff_not, not_not,
          Option.some.injEq]
        constructor
        · rintro ((h1 | h2) | h3)
          · exact Or.inl h1
          · exact Or.inr (Or.inr (Or.inl h2))
          · exact Or.inr (Or.inr (Or.inr (Or.inr h3)))
        · rintro (h1 | h2 | h2 | h3 | h3)
          · exact Or.inl (Or.inl h1)
          · cases h2
          · exact Or.inl (Or.inr h2)
          · cases h3
          · exact Or.inr h3
  · intro hnil
    unfold submitHandler collectItems
    rw [hnil]
    rfl
  · intro items hsend
    have hrow : ∀ r : ItemRow, rowTruthy r = true →
        r.productId ≠ "" ∧ r.quantity.getD 0 ≠ 0 ∧ r.unitPrice.getD 0 ≠ 0 := by
      intro r htr
      rcases r with ⟨pid, q, pr⟩
      unfold rowTruthy at htr
      cases q with
      | none => simp at htr
      | some a =>
        cases pr with
        | none => simp at htr
        | some b =>
          simp only [Bool.and_eq_true, decide_eq_true_eq] at htr
          exact ⟨htr.1.1, htr.1.2, htr.2⟩
    unfold submitHandler at hsend
    dsimp only at hsend
    split at hsend
    · cases hsend
    case isFalse hlen =>
      injection hsend with hcid hitems
      subst hitems
      constructor
      · intro hcon
        exact hlen (by rw [hcon]; rfl)
      · intro it hit
        unfold collectItems at hit
        rcases List.mem_map.mp hit with ⟨r, hr, hre⟩
        have htr := (List.mem_filter.mp hr).2
        have := hrow r htr
        rw [← hre]
        exact this

/-- Witness for C10: a single all-empty row yields no request and an
error message. -/
theorem C10_submit_filter_witness :
    submitHandler "c1" [{ productId := "", quantity := none, unitPrice := none }] =
      SubmitAction.showErrorNoRequest :=
  (C10_submit_filter "c1"
    [{ productId := "", quantity := none, unitPrice := none }]).2.1 rfl

end Claims

end OrderProc
